import Mathlib

/-!
xScout dashboard — formal model of the scouting analytics engine.

Shallow embedding of the scoring core of `src/dashboard/app.js`:
the metric catalog (`METRICS`), the role templates (`ROLES`), the
role-fit scorer (`calcRoleFit`), the similarity function
(`euclideanSimilarity`), the overall rating (`computeOverall`), the
similar-player shortlist logic of `renderSimilar`, and the role-fit
leaderboard logic of `renderRoleFit`.

Numbers in the JavaScript source are IEEE doubles; they are idealised
here as exact rationals (player data, weights) and reals (for the
square root inside the similarity formula).  `Math.round` rounds half
toward positive infinity, which coincides with Mathlib's `round`.
JavaScript's stable `Array.prototype.sort` is modelled by
`List.mergeSort`, which is stable.
-/

namespace XScout

/-- The closed catalog of metric keys (the `METRICS` array in app.js). -/
inductive MetricKey where
  | shots_p90 | xg_p90 | shot_conversion
  | prog_passes_p90 | pass_completion | key_passes_p90
  | dribbles_p90 | pressures_p90 | press_success
  | aerial_win_rate | distance_p90
deriving DecidableEq, Repr

open MetricKey

/-- The live metric catalog, in source order (`METRICS` in app.js). -/
def METRICS : List MetricKey :=
  [shots_p90, xg_p90, shot_conversion,
   prog_passes_p90, pass_completion, key_passes_p90,
   dribbles_p90, pressures_p90, press_success,
   aerial_win_rate, distance_p90]

/-- A player record from `players.json`: identifier, display fields and a
sparse metric map (`none` models an absent JSON field). -/
structure Player where
  player_id : ℕ
  name : String
  position : String
  age : ℤ
  minutes_played : ℤ
  metrics : MetricKey → Option ℚ

/-- Metric lookup `player[m] || 0` in app.js: an absent value is read as 0. -/
def getMetric (p : Player) (m : MetricKey) : ℚ :=
  (p.metrics m).getD 0

/-- A role template: the (metric, weight) pairs of one entry of `ROLES`. -/
abbrev RoleWeights := List (MetricKey × ℚ)

/-- The role template registry (`ROLES` in app.js). -/
def ROLES : List (String × RoleWeights) :=
  [("Poacher",
     [(shot_conversion, 3/10), (xg_p90, 1/4), (shots_p90, 1/5),
      (aerial_win_rate, 3/20), (press_success, 1/10)]),
   ("Target Man",
     [(aerial_win_rate, 3/10), (xg_p90, 1/4), (shot_conversion, 1/5),
      (pressures_p90, 3/20), (dribbles_p90, 1/10)]),
   ("Winger",
     [(dribbles_p90, 3/10), (shots_p90, 1/5), (key_passes_p90, 1/5),
      (distance_p90, 3/20), (press_success, 3/20)]),
   ("Box-to-Box MF",
     [(distance_p90, 1/4), (prog_passes_p90, 1/5), (pressures_p90, 1/5),
      (dribbles_p90, 3/20), (shots_p90, 1/5)]),
   ("Ball-Playing Def",
     [(pass_completion, 3/10), (prog_passes_p90, 1/4), (key_passes_p90, 1/5),
      (aerial_win_rate, 3/20), (pressures_p90, 1/10)]),
   ("Deep-Lying Playmaker",
     [(key_passes_p90, 3/10), (pass_completion, 3/10), (prog_passes_p90, 1/4),
      (xg_p90, 3/20)]),
   ("Pressing Winger",
     [(pressures_p90, 3/10), (press_success, 1/4), (distance_p90, 1/5),
      (dribbles_p90, 1/4)])]

/-- Function `calcRoleFit` (app.js lines 86–92): accumulate
`score += (player[attr] || 0) * weight` over the template's entries,
then `Math.round(Math.min(score, 99))`. -/
def calcRoleFit (player : Player) (roleWeights : RoleWeights) : ℤ :=
  let score := roleWeights.foldl (fun s aw => s + getMetric player aw.1 * aw.2) 0
  round (min score 99)

/-- Function `computeOverall` (app.js lines 109–112): mean of all catalog metric
values (absent read as 0), rounded. -/
def computeOverall (player : Player) : ℤ :=
  let vals := METRICS.map (getMetric player)
  round (vals.foldl (· + ·) 0 / (vals.length : ℚ))

/-- The accumulated sum of squared metric differences inside
`euclideanSimilarity` (app.js lines 100–103). -/
def sqDiffSum (a b : Player) : ℚ :=
  METRICS.foldl (fun s m => s + (getMetric a m - getMetric b m) ^ 2) 0

/-- Function `euclideanSimilarity` (app.js lines 99–107):
`dist = sqrt(Σ (a_i − b_i)²)`, `maxDist = sqrt(METRICS.length * 100 * 100)`,
result `Math.round((1 − dist / maxDist) * 100)`. -/
noncomputable def euclideanSimilarity (a b : Player) : ℤ :=
  let dist : ℝ := Real.sqrt ((sqDiffSum a b : ℚ) : ℝ)
  let maxDist : ℝ := Real.sqrt ((METRICS.length : ℝ) * 100 * 100)
  round ((1 - dist / maxDist) * 100)

/-- The age filter of `renderSimilar` (app.js line 553): the age bound is
`parseInt` of the dropdown value; a failed parse is `NaN` (modelled as
`none`) and `p.age <= NaN` is false for every age. -/
def agePasses (a : ℤ) : Option ℤ → Bool
  | some n => decide (a ≤ n)
  | none => false

/-- Descending-by-score order used by the `.sort((a, b) => b.sim - a.sim)`
and `.sort((a, b) => b.fit - a.fit)` call sites: `x` may come before `y`
iff `x`'s score is at least `y`'s. -/
def byScoreDesc (x y : Player × ℤ) : Bool :=
  decide (y.2 ≤ x.2)

/-- The candidate pool of `renderSimilar` (app.js lines 551–553): drop the
reference player by `player_id`, apply the position filter unless it is
`"all"`, then the inclusive age ceiling. -/
def filteredPool (ref : Player) (players : List Player)
    (posFilter : String) (ageFilter : Option ℤ) : List Player :=
  let pool := players.filter (fun p => decide (p.player_id ≠ ref.player_id))
  let pool := if posFilter ≠ "all"
    then pool.filter (fun p => decide (p.position = posFilter)) else pool
  pool.filter (fun p => agePasses p.age ageFilter)

/-- The scored pool of `renderSimilar` (app.js line 555), in pool order. -/
noncomputable def scoredPool (ref : Player) (players : List Player)
    (posFilter : String) (ageFilter : Option ℤ) : List (Player × ℤ) :=
  (filteredPool ref players posFilter ageFilter).map
    (fun p => (p, euclideanSimilarity ref p))

/-- The similar-player shortlist of `renderSimilar` (app.js lines 545–557):
score the filtered pool, stable-sort descending by similarity, keep 5. -/
noncomputable def findSimilar (ref : Player) (players : List Player)
    (posFilter : String) (ageFilter : Option ℤ) : List (Player × ℤ) :=
  ((scoredPool ref players posFilter ageFilter).mergeSort byScoreDesc).take 5

/-- The all-players leaderboard of `renderRoleFit` (app.js lines 520–522):
attach each player's fit score, stable-sort descending by fit, keep 20. -/
def rankByRole (players : List Player) (w : RoleWeights) : List (Player × ℤ) :=
  ((players.map (fun p => (p, calcRoleFit p w))).mergeSort byScoreDesc).take 20

/-- The similarity formula as the specification words it: Euclidean
distance over all `N` catalog metrics (absent values 0), normalised by
`maxDist = sqrt(N × 100²)` with `N` the live catalog size, then
`round((1 − dist/maxDist) × 100)`. -/
noncomputable def similaritySpec (a b : Player) : ℤ :=
  let dist : ℝ :=
    Real.sqrt (((METRICS.map (fun m => (getMetric a m - getMetric b m) ^ 2)).sum : ℚ) : ℝ)
  let maxDist : ℝ := Real.sqrt ((METRICS.length : ℝ) * 100 ^ 2)
  round ((1 - dist / maxDist) * 100)

-- ─────────────────────────────────────────────
-- Concrete sample records (for closed evaluations)
-- ─────────────────────────────────────────────

/-- A reference player whose catalog metrics are all 50. -/
def refP : Player := ⟨0, "Ref", "FW", 24, 900, fun _ => some 50⟩

/-- A candidate whose catalog metrics are all 40 (uniform distance 10). -/
def candP : Player := ⟨1, "Cand", "FW", 25, 900, fun _ => some 40⟩

/-- A player with every catalog metric absent. -/
def pAbsent : Player := ⟨2, "Empty", "MF", 21, 0, fun _ => none⟩

/-- A player with one out-of-range negative metric value. -/
def pNeg : Player := ⟨3, "Neg", "MF", 21, 0,
  fun m => if m = shots_p90 then some (-10) else none⟩

/-- A degenerate template putting weight 1 on `shots_p90`. -/
def wUnit : RoleWeights := [(MetricKey.shots_p90, 1)]

/-- Twin of `pTwinB`: same metric values, different non-metric fields. -/
def pTwinA : Player := ⟨4, "Alice", "FW", 20, 500, fun _ => some 60⟩

/-- Twin of `pTwinA`: same metric values, different non-metric fields. -/
def pTwinB : Player := ⟨5, "Bob", "DF", 33, 100, fun _ => some 60⟩

/-- An out-of-range player: every metric 200 (twice the nominal maximum). -/
def pHigh : Player := ⟨6, "High", "FW", 25, 900, fun _ => some 200⟩

/-- A player with every metric value present and equal to 0. -/
def pZero : Player := ⟨7, "Zero", "FW", 25, 900, fun _ => some 0⟩

-- ─────────────────────────────────────────────
-- Helper lemmas
-- ─────────────────────────────────────────────

theorem foldl_add_map {α : Type} (f : α → ℚ) :
    ∀ (l : List α) (init : ℚ),
      l.foldl (fun s a => s + f a) init = init + (l.map f).sum
  | [], init => by simp
  | a :: t, init => by
    simp only [List.foldl_cons, List.map_cons, List.sum_cons]
    rw [foldl_add_map f t (init + f a)]
    ring

theorem foldl_add_eq_sum :
    ∀ (l : List ℚ) (init : ℚ), l.foldl (· + ·) init = init + l.sum
  | [], init => by simp
  | a :: t, init => by
    simp only [List.foldl_cons, List.sum_cons]
    rw [foldl_add_eq_sum t (init + a)]
    ring

theorem round_mono_of_le {α : Type} [LinearOrderedField α] [FloorRing α]
    {x y : α} (h : x ≤ y) : round x ≤ round y := by
  rw [round_eq, round_eq]
  exact Int.floor_le_floor (by linarith)

theorem sqDiffSum_eq (a b : Player) :
    sqDiffSum a b = (METRICS.map (fun m => (getMetric a m - getMetric b m) ^ 2)).sum := by
  simpa [sqDiffSum] using foldl_add_map (fun m => (getMetric a m - getMetric b m) ^ 2) METRICS 0

theorem calcRoleFit_eq (p : Player) (w : RoleWeights) :
    calcRoleFit p w =
      round (min ((w.map (fun aw => getMetric p aw.1 * aw.2)).sum) 99) := by
  simpa [calcRoleFit] using
    congrArg (fun s => round (min s (99 : ℚ)))
      (foldl_add_map (fun aw : MetricKey × ℚ => getMetric p aw.1 * aw.2) w 0)

theorem computeOverall_eq (p : Player) :
    computeOverall p = round ((METRICS.map (getMetric p)).sum / 11) := by
  simpa [computeOverall, METRICS] using
    congrArg (fun s => round (s / (11 : ℚ)))
      (foldl_add_eq_sum ((METRICS.map (getMetric p))) 0)

theorem euclideanSimilarity_def (a b : Player) :
    euclideanSimilarity a b =
      round ((1 - Real.sqrt ((sqDiffSum a b : ℚ) : ℝ) /
        Real.sqrt ((METRICS.length : ℝ) * 100 * 100)) * 100) := rfl

/-- Evaluation rule: when the squared-difference sum is `110000 · r²`, the
distance ratio is exactly `r` and the similarity is `round((1 − r)·100)`. -/
theorem euclideanSimilarity_of_ratio (a b : Player) (r : ℚ) (h0 : 0 ≤ r)
    (hs : sqDiffSum a b = 110000 * r ^ 2) :
    euclideanSimilarity a b = round ((1 - r) * 100) := by
  rw [euclideanSimilarity_def]
  have hcast : ((sqDiffSum a b : ℚ) : ℝ) = 110000 * (r : ℝ) ^ 2 := by
    rw [hs]; push_cast; ring
  have hr0 : (0 : ℝ) ≤ (r : ℝ) := by exact_mod_cast h0
  have hd : Real.sqrt ((sqDiffSum a b : ℚ) : ℝ) = Real.sqrt 110000 * (r : ℝ) := by
    rw [hcast, Real.sqrt_mul (by norm_num), Real.sqrt_sq hr0]
  have hM : ((METRICS.length : ℝ) * 100 * 100) = 110000 := by
    norm_num [METRICS]
  have hpos : (0 : ℝ) < Real.sqrt 110000 := Real.sqrt_pos.mpr (by norm_num)
  rw [hd, hM, mul_comm (Real.sqrt 110000) ((r : ℝ)), mul_div_assoc,
    div_self hpos.ne']
  have hq : (1 - (r : ℝ) * 1) * 100 = (((1 - r) * 100 : ℚ) : ℝ) := by
    push_cast; ring
  rw [hq, Rat.round_cast]

theorem sqDiffSum_self (a : Player) : sqDiffSum a a = 0 := by
  rw [sqDiffSum_eq]
  simp

theorem sqDiffSum_comm (a b : Player) : sqDiffSum a b = sqDiffSum b a := by
  rw [sqDiffSum_eq, sqDiffSum_eq]
  congr 1
  exact List.map_congr_left (fun m _ => by ring)

theorem rawScore_nonneg (p : Player) (w : RoleWeights)
    (hp : ∀ m, 0 ≤ getMetric p m) (hw : ∀ mw ∈ w, 0 ≤ mw.2) :
    0 ≤ (w.map (fun mw => getMetric p mw.1 * mw.2)).sum := by
  apply List.sum_nonneg
  intro x hx
  simp only [List.mem_map] at hx
  obtain ⟨mw, hmw, rfl⟩ := hx
  exact mul_nonneg (hp mw.1) (hw mw hmw)

theorem similaritySpec_def (a b : Player) :
    similaritySpec a b =
      round ((1 - Real.sqrt
          (((METRICS.map (fun m => (getMetric a m - getMetric b m) ^ 2)).sum : ℚ) : ℝ) /
        Real.sqrt ((METRICS.length : ℝ) * 100 ^ 2)) * 100) := rfl

theorem findSimilar_def (ref : Player) (players : List Player)
    (posFilter : String) (ageFilter : Option ℤ) :
    findSimilar ref players posFilter ageFilter =
      ((scoredPool ref players posFilter ageFilter).mergeSort byScoreDesc).take 5 := rfl

theorem rankByRole_def (players : List Player) (w : RoleWeights) :
    rankByRole players w =
      ((players.map (fun p => (p, calcRoleFit p w))).mergeSort byScoreDesc).take 20 := rfl

theorem byScoreDesc_trans :
    ∀ a b c : Player × ℤ, byScoreDesc a b → byScoreDesc b c → byScoreDesc a c := by
  intro a b c hab hbc
  simp only [byScoreDesc, decide_eq_true_eq] at *
  omega

theorem byScoreDesc_total :
    ∀ a b : Player × ℤ, byScoreDesc a b || byScoreDesc b a := by
  intro a b
  simp only [byScoreDesc, Bool.or_eq_true, decide_eq_true_eq]
  omega

/-- Stability of the embedded sort: the entries carrying any fixed score
appear in the sorted list exactly as they appear in the input. -/
theorem filter_mergeSort_byScoreDesc (l : List (Player × ℤ)) (s : ℤ) :
    (l.mergeSort byScoreDesc).filter (fun x => decide (x.2 = s)) =
      l.filter (fun x => decide (x.2 = s)) := by
  have hpw : (l.filter (fun x => decide (x.2 = s))).Pairwise
      (fun a b => byScoreDesc a b) := by
    apply List.pairwise_of_forall_mem_list
    intro a ha b hb
    have ha' := List.of_mem_filter ha
    have hb' := List.of_mem_filter hb
    simp only [decide_eq_true_eq] at ha' hb'
    simp [byScoreDesc, ha', hb']
  have hsub : List.Sublist (l.filter (fun x => decide (x.2 = s))) (l.mergeSort byScoreDesc) :=
    List.sublist_mergeSort byScoreDesc_trans byScoreDesc_total hpw
      (List.filter_sublist l)
  have hsub2 := hsub.filter (fun x => decide (x.2 = s))
  rw [List.filter_filter] at hsub2
  simp only [Bool.and_self] at hsub2
  have hlen : ((l.mergeSort byScoreDesc).filter (fun x => decide (x.2 = s))).length =
      (l.filter (fun x => decide (x.2 = s))).length :=
    ((List.mergeSort_perm l byScoreDesc).filter _).length_eq
  exact (hsub2.eq_of_length hlen.symm).symm

theorem mergeSort_byScoreDesc_sorted (l : List (Player × ℤ)) :
    (l.mergeSort byScoreDesc).Pairwise (fun x y : Player × ℤ => y.2 ≤ x.2) := by
  have h := List.sorted_mergeSort byScoreDesc_trans byScoreDesc_total l
  exact h.imp (fun hab => of_decide_eq_true hab)

/-- Any survivor of the three `renderSimilar` filters differs from the
reference by id, matches the position filter (unless it is `"all"`), and
passes the age test. -/
theorem mem_filteredPool (ref : Player) (players : List Player)
    (posFilter : String) (ageFilter : Option ℤ) (p : Player)
    (hp : p ∈ filteredPool ref players posFilter ageFilter) :
    p.player_id ≠ ref.player_id ∧
    (posFilter = "all" ∨ p.position = posFilter) ∧
    agePasses p.age ageFilter = true := by
  simp only [filteredPool] at hp
  have hage := List.of_mem_filter hp
  have hp1 := List.mem_of_mem_filter hp
  by_cases hall : posFilter = "all"
  · rw [if_neg (fun h => h hall)] at hp1
    have hid := List.of_mem_filter hp1
    simp only [decide_eq_true_eq] at hid
    exact ⟨hid, Or.inl hall, hage⟩
  · rw [if_pos hall] at hp1
    have hpos := List.of_mem_filter hp1
    have hp0 := List.mem_of_mem_filter hp1
    have hid := List.of_mem_filter hp0
    simp only [decide_eq_true_eq] at hid hpos
    exact ⟨hid, Or.inr hpos, hage⟩

/-- The sample pair at uniform metric distance 10 scores 90. -/
theorem sim_refP_candP : euclideanSimilarity refP candP = 90 := by
  have hs : sqDiffSum refP candP = 110000 * (1 / 10 : ℚ) ^ 2 := by
    rw [sqDiffSum_eq]
    norm_num [METRICS, getMetric, refP, candP]
  rw [euclideanSimilarity_of_ratio refP candP (1 / 10) (by norm_num) hs]
  have h90 : ((1 - 1 / 10) * 100 : ℚ) = ((90 : ℤ) : ℚ) := by norm_num
  rw [h90, round_intCast]

theorem filteredPool_FW_eval :
    filteredPool refP [candP] "FW" (some 30) = [candP] := by
  simp [filteredPool, refP, candP, agePasses]

theorem filteredPool_all_eval :
    filteredPool refP [candP] "all" (some 30) = [candP] := by
  simp [filteredPool, refP, candP, agePasses]

theorem findSimilar_FW_eval :
    findSimilar refP [candP] "FW" (some 30) = [(candP, 90)] := by
  rw [findSimilar_def]
  simp [scoredPool, filteredPool_FW_eval, sim_refP_candP]

theorem findSimilar_all_eval :
    findSimilar refP [candP] "all" (some 30) = [(candP, 90)] := by
  rw [findSimilar_def]
  simp [scoredPool, filteredPool_all_eval, sim_refP_candP]

-- ─────────────────────────────────────────────
-- Claim theorems
-- ─────────────────────────────────────────────

/-- C1: the similarity score is `round((1 − dist/maxDist) × 100)` with
`dist` the Euclidean distance over all catalog metrics (absent values 0)
and `maxDist = sqrt(N × 100²)` for the live catalog size
`N = METRICS.length`, which is 11 in this code. -/
theorem similarity_matches_spec_formula (a b : Player) :
    euclideanSimilarity a b = similaritySpec a b ∧ METRICS.length = 11 := by
  refine ⟨?_, rfl⟩
  rw [euclideanSimilarity_def, similaritySpec_def, sqDiffSum_eq]
  have hM : ((METRICS.length : ℝ) * 100 * 100) = ((METRICS.length : ℝ) * 100 ^ 2) := by
    ring
  rw [hM]

/-- C4: similarity is symmetric, and every player is 100% similar to
itself. -/
theorem similarity_symm_and_self (a b : Player) :
    euclideanSimilarity a b = euclideanSimilarity b a ∧
    euclideanSimilarity a a = 100 := by
  constructor
  · rw [euclideanSimilarity_def, euclideanSimilarity_def, sqDiffSum_comm]
  · have h := euclideanSimilarity_of_ratio a a 0 le_rfl
      (by rw [sqDiffSum_self]; ring)
    rw [h]
    norm_num

/-- C6 counterexample: `euclideanSimilarity` performs no clamping; for
out-of-range inputs (every metric 200 versus every metric 0) it returns
−100, a negative value, contradicting the claim that the result is
clamped to [0, 100]. -/
theorem similarity_returns_negative :
    euclideanSimilarity pHigh pZero = -100 ∧ euclideanSimilarity pHigh pZero < 0 := by
  have hs : sqDiffSum pHigh pZero = 110000 * 2 ^ 2 := by
    rw [sqDiffSum_eq]
    simp only [METRICS, getMetric, pHigh, pZero, List.map_cons, List.map_nil,
      List.sum_cons, List.sum_nil, Option.getD_some]
    norm_num
  have h := euclideanSimilarity_of_ratio pHigh pZero 2 (by norm_num) hs
  have hr : ((1 - 2) * 100 : ℚ) = ((-100 : ℤ) : ℚ) := by norm_num
  rw [h, hr, round_intCast]
  norm_num

/-- C6 amended: the similarity result is never above 100, and it is
non-negative whenever both players' metric values lie in the nominal
[0, 100] range; but no defensive clamp exists, so out-of-range inputs can
drive it negative. -/
theorem similarity_bounded (a b : Player) :
    euclideanSimilarity a b ≤ 100 ∧
    ((∀ m, 0 ≤ getMetric a m ∧ getMetric a m ≤ 100) →
     (∀ m, 0 ≤ getMetric b m ∧ getMetric b m ≤ 100) →
     0 ≤ euclideanSimilarity a b) := by
  have hqnn : (0 : ℝ) ≤
      Real.sqrt ((sqDiffSum a b : ℚ) : ℝ) /
        Real.sqrt ((METRICS.length : ℝ) * 100 * 100) :=
    div_nonneg (Real.sqrt_nonneg _) (Real.sqrt_nonneg _)
  constructor
  · rw [euclideanSimilarity_def]
    have h2 : (1 - Real.sqrt ((sqDiffSum a b : ℚ) : ℝ) /
        Real.sqrt ((METRICS.length : ℝ) * 100 * 100)) * 100 ≤ (100 : ℝ) := by
      nlinarith
    calc round ((1 - Real.sqrt ((sqDiffSum a b : ℚ) : ℝ) /
            Real.sqrt ((METRICS.length : ℝ) * 100 * 100)) * 100)
        ≤ round (100 : ℝ) := round_mono_of_le h2
      _ = 100 := by norm_num
  · intro ha hb
    have hsum : sqDiffSum a b ≤ 110000 := by
      rw [sqDiffSum_eq]
      have hpt : ∀ m ∈ METRICS,
          (getMetric a m - getMetric b m) ^ 2 ≤ (fun _ : MetricKey => (10000 : ℚ)) m := by
        intro m _
        have h1 := (ha m).1
        have h2 := (ha m).2
        have h3 := (hb m).1
        have h4 := (hb m).2
        simp only []
        nlinarith
      calc (METRICS.map (fun m => (getMetric a m - getMetric b m) ^ 2)).sum
          ≤ (METRICS.map (fun _ : MetricKey => (10000 : ℚ))).sum :=
            List.sum_le_sum hpt
        _ = 110000 := by norm_num [METRICS]
    have hM : ((METRICS.length : ℝ) * 100 * 100) = 110000 := by norm_num [METRICS]
    have hd : Real.sqrt ((sqDiffSum a b : ℚ) : ℝ) ≤ Real.sqrt 110000 := by
      apply Real.sqrt_le_sqrt
      exact_mod_cast hsum
    have hpos : (0 : ℝ) < Real.sqrt 110000 := Real.sqrt_pos.mpr (by norm_num)
    have hratio : Real.sqrt ((sqDiffSum a b : ℚ) : ℝ) /
        Real.sqrt ((METRICS.length : ℝ) * 100 * 100) ≤ 1 := by
      rw [hM, div_le_one hpos]
      exact hd
    rw [euclideanSimilarity_def]
    have h0 : (0 : ℝ) ≤ (1 - Real.sqrt ((sqDiffSum a b : ℚ) : ℝ) /
        Real.sqrt ((METRICS.length : ℝ) * 100 * 100)) * 100 := by
      nlinarith
    calc (0 : ℤ) = round (0 : ℝ) := by norm_num
      _ ≤ round ((1 - Real.sqrt ((sqDiffSum a b : ℚ) : ℝ) /
            Real.sqrt ((METRICS.length : ℝ) * 100 * 100)) * 100) :=
          round_mono_of_le h0

/-- C6 amended, witness: for the in-range sample players the similarity
lies in [0, 100]. -/
theorem similarity_bounded_witness :
    0 ≤ euclideanSimilarity refP candP ∧ euclideanSimilarity refP candP ≤ 100 := by
  have h := similarity_bounded refP candP
  refine ⟨h.2 ?_ ?_, h.1⟩
  · intro m
    constructor <;> norm_num [getMetric, refP]
  · intro m
    constructor <;> norm_num [getMetric, candP]

/-- C2: for non-negative metric values and non-negative template weights,
the role-fit score is the weighted sum clamped at 99 and rounded, and it
is an integer in [0, 99]. -/
theorem roleFit_weighted_sum_in_range (p : Player) (w : RoleWeights)
    (hp : ∀ m, 0 ≤ getMetric p m) (hw : ∀ mw ∈ w, 0 ≤ mw.2) :
    calcRoleFit p w =
      round (min ((w.map (fun mw => getMetric p mw.1 * mw.2)).sum) 99) ∧
    0 ≤ calcRoleFit p w ∧ calcRoleFit p w ≤ 99 := by
  have heq := calcRoleFit_eq p w
  have hsum := rawScore_nonneg p w hp hw
  refine ⟨heq, ?_, ?_⟩
  · rw [heq]
    calc (0 : ℤ) = round (0 : ℚ) := by simp
      _ ≤ _ := round_mono_of_le (le_min hsum (by norm_num))
  · rw [heq]
    calc round (min ((w.map (fun mw => getMetric p mw.1 * mw.2)).sum) 99)
        ≤ round (99 : ℚ) := round_mono_of_le (min_le_right _ _)
      _ = 99 := by simp

/-- C2, witness: the degenerate one-metric template on the all-50 player
gives a fit of exactly the weighted sum, inside [0, 99]. -/
theorem roleFit_weighted_sum_in_range_witness :
    calcRoleFit refP wUnit =
      round (min ((wUnit.map (fun mw => getMetric refP mw.1 * mw.2)).sum) 99) ∧
    0 ≤ calcRoleFit refP wUnit ∧ calcRoleFit refP wUnit ≤ 99 := by
  apply roleFit_weighted_sum_in_range refP wUnit
  · intro m
    norm_num [getMetric, refP]
  · intro mw hmw
    simp only [wUnit, List.mem_singleton] at hmw
    subst hmw
    norm_num

/-- C7 counterexample: the code has no floor clamp; a negative metric
value (−10 on `shots_p90`, weight 1) yields a role-fit of −10 < 0,
contradicting the claim that the score is never negative. -/
theorem roleFit_negative_example :
    calcRoleFit pNeg wUnit = -10 ∧ calcRoleFit pNeg wUnit < 0 := by
  have hm : (wUnit.map (fun mw => getMetric pNeg mw.1 * mw.2)).sum = -10 := by
    simp [wUnit, getMetric, pNeg]
  have hmin : min ((-10 : ℚ)) 99 = ((-10 : ℤ) : ℚ) := by norm_num
  constructor
  · rw [calcRoleFit_eq, hm, hmin, round_intCast]
  · rw [calcRoleFit_eq, hm, hmin, round_intCast]
    norm_num

/-- C7 amended: `calcRoleFit` clamps only at the ceiling; the result is
non-negative whenever metric values and weights are non-negative, but a
negative raw weighted sum passes through unclamped. -/
theorem roleFit_nonneg_of_nonneg (p : Player) (w : RoleWeights)
    (hp : ∀ m, 0 ≤ getMetric p m) (hw : ∀ mw ∈ w, 0 ≤ mw.2) :
    0 ≤ calcRoleFit p w := by
  rw [calcRoleFit_eq]
  have hsum := rawScore_nonneg p w hp hw
  calc (0 : ℤ) = round (0 : ℚ) := by simp
    _ ≤ _ := round_mono_of_le (le_min hsum (by norm_num))

/-- C7 amended, witness: the all-40 player has a non-negative fit for the
unit template. -/
theorem roleFit_nonneg_of_nonneg_witness : 0 ≤ calcRoleFit candP wUnit := by
  apply roleFit_nonneg_of_nonneg candP wUnit
  · intro m
    norm_num [getMetric, candP]
  · intro mw hmw
    simp only [wUnit, List.mem_singleton] at hmw
    subst hmw
    norm_num

/-- C8: `computeOverall` is the rounded mean over the full catalog with
absent values read as 0; it lies in [0, 100] for in-range inputs; and a
player with every metric absent rates 0. -/
theorem computeOverall_spec (p : Player) :
    computeOverall p = round ((METRICS.map (getMetric p)).sum / 11) ∧
    ((∀ m, 0 ≤ getMetric p m ∧ getMetric p m ≤ 100) →
      0 ≤ computeOverall p ∧ computeOverall p ≤ 100) ∧
    ((∀ m, p.metrics m = none) → computeOverall p = 0) := by
  refine ⟨computeOverall_eq p, ?_, ?_⟩
  · intro h
    have h0 : 0 ≤ (METRICS.map (getMetric p)).sum := by
      apply List.sum_nonneg
      intro x hx
      simp only [List.mem_map] at hx
      obtain ⟨m, _, rfl⟩ := hx
      exact (h m).1
    have h1 : (METRICS.map (getMetric p)).sum ≤ 1100 := by
      calc (METRICS.map (getMetric p)).sum
          ≤ (METRICS.map (fun _ : MetricKey => (100 : ℚ))).sum :=
            List.sum_le_sum (fun m _ => (h m).2)
        _ = 1100 := by norm_num [METRICS]
    constructor
    · rw [computeOverall_eq]
      calc (0 : ℤ) = round (0 : ℚ) := by simp
        _ ≤ _ := round_mono_of_le (div_nonneg h0 (by norm_num))
    · rw [computeOverall_eq]
      calc round ((METRICS.map (getMetric p)).sum / 11)
          ≤ round (100 : ℚ) :=
            round_mono_of_le ((div_le_iff₀ (by norm_num)).mpr (by linarith))
        _ = 100 := by simp
  · intro h
    have hz : (METRICS.map (getMetric p)).sum = 0 := by
      apply List.sum_eq_zero
      intro x hx
      simp only [List.mem_map] at hx
      obtain ⟨m, _, rfl⟩ := hx
      simp [getMetric, h m]
    rw [computeOverall_eq, hz]
    simp

/-- C8, witness: the all-absent player rates exactly 0, inside [0, 100]. -/
theorem computeOverall_spec_witness :
    0 ≤ computeOverall pAbsent ∧ computeOverall pAbsent ≤ 100 ∧
    computeOverall pAbsent = 0 := by
  have h := computeOverall_spec pAbsent
  have hin : ∀ m, 0 ≤ getMetric pAbsent m ∧ getMetric pAbsent m ≤ 100 := by
    intro m
    constructor <;> norm_num [getMetric, pAbsent]
  have habs : ∀ m, pAbsent.metrics m = none := fun m => rfl
  exact ⟨(h.2.1 hin).1, (h.2.1 hin).2, h.2.2 habs⟩

/-- C10: the three scoring functions read only the catalog metric values
of their player arguments; two records agreeing on all metrics score
identically regardless of name, position, age or minutes. -/
theorem scores_depend_only_on_metrics (p q : Player)
    (h : ∀ m, getMetric p m = getMetric q m) :
    computeOverall p = computeOverall q ∧
    (∀ w : RoleWeights, calcRoleFit p w = calcRoleFit q w) ∧
    (∀ o : Player, euclideanSimilarity p o = euclideanSimilarity q o ∧
      euclideanSimilarity o p = euclideanSimilarity o q) := by
  have hmap : METRICS.map (getMetric p) = METRICS.map (getMetric q) :=
    List.map_congr_left (fun m _ => h m)
  refine ⟨?_, ?_, ?_⟩
  · rw [computeOverall_eq, computeOverall_eq, hmap]
  · intro w
    rw [calcRoleFit_eq, calcRoleFit_eq]
    have : (w.map (fun mw => getMetric p mw.1 * mw.2)) =
        (w.map (fun mw => getMetric q mw.1 * mw.2)) :=
      List.map_congr_left (fun mw _ => by rw [h mw.1])
    rw [this]
  · intro o
    constructor
    · rw [euclideanSimilarity_def, euclideanSimilarity_def,
        sqDiffSum_eq, sqDiffSum_eq]
      have : (METRICS.map (fun m => (getMetric p m - getMetric o m) ^ 2)) =
          (METRICS.map (fun m => (getMetric q m - getMetric o m) ^ 2)) :=
        List.map_congr_left (fun m _ => by rw [h m])
      rw [this]
    · rw [euclideanSimilarity_def, euclideanSimilarity_def,
        sqDiffSum_eq, sqDiffSum_eq]
      have : (METRICS.map (fun m => (getMetric o m - getMetric p m) ^ 2)) =
          (METRICS.map (fun m => (getMetric o m - getMetric q m) ^ 2)) :=
        List.map_congr_left (fun m _ => by rw [h m])
      rw [this]

/-- C10, witness: two records with identical metrics but different name,
position, age and minutes score identically. -/
theorem scores_depend_only_on_metrics_witness :
    computeOverall pTwinA = computeOverall pTwinB ∧
    calcRoleFit pTwinA wUnit = calcRoleFit pTwinB wUnit ∧
    euclideanSimilarity pTwinA refP = euclideanSimilarity pTwinB refP := by
  have h := scores_depend_only_on_metrics pTwinA pTwinB
    (fun m => by simp [getMetric, pTwinA, pTwinB])
  exact ⟨h.1, h.2.1 wUnit, (h.2.2 refP).1⟩

/-- C3: the shortlist never contains the reference player, every entry
matches the position filter (unless `"all"`) and the age ceiling, the
output is sorted descending by similarity with ties in pool order, and at
most 5 entries are returned. -/
theorem findSimilar_spec (ref : Player) (players : List Player)
    (posFilter : String) (n : ℤ) :
    (∀ x ∈ findSimilar ref players posFilter (some n),
        x.1.player_id ≠ ref.player_id ∧
        (posFilter = "all" ∨ x.1.position = posFilter) ∧
        x.1.age ≤ n) ∧
    (findSimilar ref players posFilter (some n)).Pairwise
      (fun x y : Player × ℤ => y.2 ≤ x.2) ∧
    (∀ s : ℤ,
      (findSimilar ref players posFilter (some n)).filter
          (fun x => decide (x.2 = s)) <+:
        (scoredPool ref players posFilter (some n)).filter
          (fun x => decide (x.2 = s))) ∧
    (findSimilar ref players posFilter (some n)).length ≤ 5 := by
  refine ⟨?_, ?_, ?_, ?_⟩
  · intro x hx
    rw [findSimilar_def] at hx
    have hx1 := List.mem_of_mem_take hx
    rw [List.mem_mergeSort] at hx1
    simp only [scoredPool, List.mem_map] at hx1
    obtain ⟨p, hp, rfl⟩ := hx1
    obtain ⟨h1, h2, h3⟩ := mem_filteredPool ref players posFilter (some n) p hp
    simp only [agePasses, decide_eq_true_eq] at h3
    exact ⟨h1, h2, h3⟩
  · rw [findSimilar_def]
    exact (mergeSort_byScoreDesc_sorted _).sublist (List.take_sublist 5 _)
  · intro s
    rw [findSimilar_def]
    have h1 := List.take_prefix 5
      ((scoredPool ref players posFilter (some n)).mergeSort byScoreDesc)
    have h2 := h1.filter (fun x => decide (x.2 = s))
    rwa [filter_mergeSort_byScoreDesc] at h2
  · rw [findSimilar_def]
    exact List.length_take_le 5 _

/-- C3, witness: on a one-candidate pool with position filter `"FW"` and
age ceiling 30 the candidate is returned and satisfies the filters. -/
theorem findSimilar_spec_witness :
    candP.player_id ≠ refP.player_id ∧ candP.position = "FW" ∧
    candP.age ≤ 30 ∧ (findSimilar refP [candP] "FW" (some 30)).length ≤ 5 := by
  have h := findSimilar_spec refP [candP] "FW" 30
  have hmem : (candP, (90 : ℤ)) ∈ findSimilar refP [candP] "FW" (some 30) := by
    rw [findSimilar_FW_eval]
    exact List.mem_singleton_self _
  obtain ⟨h1, h2, h3⟩ := h.1 _ hmem
  refine ⟨h1, ?_, h3, h.2.2.2⟩
  rcases h2 with h2 | h2
  · exact absurd h2 (by decide)
  · exact h2

/-- C5: the role-fit leaderboard is built by a stable descending sort of
the players in input order, so entries with equal fit scores appear in
the leaderboard exactly in their input-collection order (the output's
slice of any fixed score is a prefix of the input's slice). -/
theorem rankByRole_stable_ties (players : List Player) (w : RoleWeights) (s : ℤ) :
    (rankByRole players w).filter (fun x => decide (x.2 = s)) <+:
      (players.map (fun p => (p, calcRoleFit p w))).filter
        (fun x => decide (x.2 = s)) := by
  rw [rankByRole_def]
  have h1 := List.take_prefix 20
    ((players.map (fun p => (p, calcRoleFit p w))).mergeSort byScoreDesc)
  have h2 := h1.filter (fun x => decide (x.2 = s))
  rwa [filter_mergeSort_byScoreDesc] at h2

/-- C9 counterexample: an age-filter value that is not a valid integer
(`parseInt` yields `NaN`, modelled as `none`) is silently swallowed: the
shortlist comes back empty with no error, indistinguishable from a
legitimate over-restrictive filter, even though the same pool yields a
non-empty shortlist under a valid age ceiling. -/
theorem invalid_age_filter_silently_empty :
    findSimilar refP [candP] "all" none = [] ∧
    findSimilar refP [candP] "all" (some 30) ≠ [] := by
  constructor
  · rw [findSimilar_def]
    have hfp : filteredPool refP [candP] "all" none = [] := by
      simp [filteredPool, agePasses]
    simp [scoredPool, hfp]
  · rw [findSimilar_all_eval]
    simp

/-- C9 amended: the shortlist code reports no invalid-argument condition;
an unparseable age-filter value makes every age comparison false, so the
operation silently returns the empty list for any reference, pool and
position filter. -/
theorem findSimilar_invalid_age_empty (ref : Player) (players : List Player)
    (posFilter : String) :
    findSimilar ref players posFilter none = [] := by
  rw [findSimilar_def]
  have hfp : filteredPool ref players posFilter none = [] := by
    simp [filteredPool, agePasses]
  simp [scoredPool, hfp]

end XScout
